import Mathlib

/-!
# Sweep endpoints of the moov-go client

A shallow embedding of `pkg/moov/sweep_api.go` (the sweep endpoint wrappers and the
`ListSweepsFilter` options) together with the parts of the call engine they rely on.

Conventions of the embedding:

* a Go `map[string]string` is an `Option StrMap`: `none` is the nil map, `some m` an
  initialised map; `StrMap` is a finite map with extensional equality, as Go maps are
  unordered;
* a Go function `func(call *callBuilder) error` is a function from the builder to either a
  run-time panic or the mutated builder paired with the returned error (`none` is `nil`);
* a pointer or slice result is an `Option`, with `none` for `nil`;
* side effects of a wrapper (calls of `CallHttp`, calls of a response resolver) are recorded
  in an explicit `Trace` that is threaded through the wrapper.
-/

namespace Moov

/-! ## Errors and panics -/

/-- A Go `error` value. `errorString` is what `fmt.Errorf` builds; the other constructors are
the error taxonomy of the call engine. -/
inductive GoError where
  | errorString (text : String)
  | TransportError (text : String)
  | HTTPError (status : Int) (rawBody : String)
  | APIError (status : Int) (message : String) (details : List String)
  | MalformedResponse (text : String)
  | MalformedPath (text : String)
  deriving DecidableEq, Repr

/-- The text of an error, as returned by its `Error()` method and printed by `%v`. -/
def GoError.Error : GoError → String
  | .errorString text => text
  | .TransportError text => text
  | .HTTPError _ rawBody => rawBody
  | .APIError _ message _ => message
  | .MalformedResponse text => text
  | .MalformedPath text => text

/-- The result of `fmt.Errorf(format, err)` for a format made of a literal `lead` followed by
the verb `%v`: a fresh error whose text is `lead` followed by the text of `err`. -/
def Errorf_v (lead : String) (err : GoError) : GoError :=
  .errorString (lead ++ err.Error)

/-- Run-time panics that the embedded code can raise. -/
inductive GoPanic where
  | assignToNilMap
  deriving DecidableEq, Repr

/-! ## The request descriptor -/

/-- A finite map from strings to strings. -/
abbrev StrMap := Finmap (fun _ : String => String)

/-- A JSON object whose members are all strings, in the order of emission. -/
abbrev JsonObject := List (String × String)

/-- Modelled from the spec: the declaration of `callBuilder` is not part of the sources at
hand. It is the Request Descriptor of the data model: method, path template, path parameters
(an ordered sequence of strings), a mapping of query parameter name to value, optional
headers and an optional request body. -/
structure callBuilder where
  method : String
  path : String
  pathParams : List String
  params : Option StrMap
  headers : Option StrMap
  body : Option JsonObject

/-- The Go read `call.params[key]` with its presence flag: a nil map has no entries. -/
def callBuilder.param (call : callBuilder) (key : String) : Option String :=
  match call.params with
  | none => none
  | some m => m.lookup key

/-- The keys present in `call.params`. -/
def callBuilder.paramKeys (call : callBuilder) : Finset String :=
  match call.params with
  | none => ∅
  | some m => m.keys

/-- The Go read `call.headers[key]` with its presence flag. -/
def callBuilder.header (call : callBuilder) (key : String) : Option String :=
  match call.headers with
  | none => none
  | some m => m.lookup key

/-- The Go statement `m[key] = value` on a map: a panic on the nil map. -/
def mapAssign (m : Option StrMap) (key value : String) : Except GoPanic (Option StrMap) :=
  match m with
  | none => .error .assignToNilMap
  | some entries => .ok (some (entries.insert key value))

/-- The outcome of running a `func(call *callBuilder) error`. -/
abbrev Applied := Except GoPanic (callBuilder × Option GoError)

/-- Modelled from the spec: `callArg` is declared outside the sources at hand. An option is a
function that mutates an in-progress request descriptor and may fail. -/
abbrev callArg := callBuilder → Applied

/-- The adapter `callBuilderFn(func(call *callBuilder) error {...})`. -/
def callBuilderFn (fn : callBuilder → Applied) : callArg := fn

/-- The declaration `type ListSweepsFilter callArg`. -/
abbrev ListSweepsFilter := callArg

/-! ## Options -/

/-- Modelled from the spec: `Skip` is defined outside the sources at hand. It is the
pagination option contributing the query key `skip` (a zero-based offset), written in
decimal. -/
def Skip (skip : Int) : callArg :=
  callBuilderFn fun call =>
    match mapAssign call.params "skip" (toString skip) with
    | .error p => .error p
    | .ok ps => .ok ({ call with params := ps }, none)

/-- Modelled from the spec: `Count` is defined outside the sources at hand. It is the
pagination option contributing the query key `count` (a max-count bound), written in
decimal. -/
def Count (count : Int) : callArg :=
  callBuilderFn fun call =>
    match mapAssign call.params "count" (toString count) with
    | .error p => .error p
    | .ok ps => .ok ({ call with params := ps }, none)

/-- Modelled from the spec: `AcceptJson` is defined outside the sources at hand. It is an
option that adds a header, asking for a JSON response; it writes no query parameter. -/
def AcceptJson : callArg :=
  callBuilderFn fun call =>
    match mapAssign call.headers "Accept" "application/json" with
    | .error p => .error p
    | .ok hs => .ok ({ call with headers := hs }, none)

/-- The filter `WithSweepStatus` of `sweep_api.go`. -/
def WithSweepStatus (status : String) : ListSweepsFilter :=
  callBuilderFn fun call =>
    match mapAssign call.params "status" status with
    | .error p => .error p
    | .ok ps => .ok ({ call with params := ps }, none)

/-- The filter `WithSweepStatementDescriptor` of `sweep_api.go`. -/
def WithSweepStatementDescriptor (statementDescriptor : String) : ListSweepsFilter :=
  callBuilderFn fun call =>
    match mapAssign call.params "statementDescriptor" statementDescriptor with
    | .error p => .error p
    | .ok ps => .ok ({ call with params := ps }, none)

/-- The filter `WithSweepSkip` of `sweep_api.go`. -/
def WithSweepSkip (skip : Int) : ListSweepsFilter :=
  Skip skip

/-- The filter `WithSweepCount` of `sweep_api.go`. -/
def WithSweepCount (count : Int) : ListSweepsFilter :=
  Count count

/-- Modelled from the spec: the loop applying a Call Option Set is outside the sources at
hand. Options are applied left-to-right in the order supplied; the first one returning an
error stops the loop and that error is the result. -/
def applyArgs : List callArg → callBuilder → Applied
  | [], call => .ok (call, none)
  | arg :: rest, call =>
    match arg call with
    | .error p => .error p
    | .ok (call1, some err) => .ok (call1, some err)
    | .ok (call1, none) => applyArgs rest call1

/-- One call of a sweep filter constructor, as data. -/
inductive FilterCall where
  | status (s : String)
  | statementDescriptor (d : String)
  | skip (n : Int)
  | count (n : Int)
  deriving DecidableEq, Repr

/-- The filter that a constructor call evaluates to. -/
def FilterCall.filter : FilterCall → ListSweepsFilter
  | .status s => WithSweepStatus s
  | .statementDescriptor d => WithSweepStatementDescriptor d
  | .skip n => WithSweepSkip n
  | .count n => WithSweepCount n

/-! ## Dispatch -/

/-- The constant `http.MethodGet`. -/
def MethodGet : String := "GET"

/-- The constant `http.MethodPost`. -/
def MethodPost : String := "POST"

/-- The constant `http.MethodPatch`. -/
def MethodPatch : String := "PATCH"

/-- Modelled from the spec: `EndpointArg` is declared outside the sources at hand. It is the
request target handed to `CallHttp`: a method, a path template and the ordered sequence of
strings substituted positionally into the template. -/
structure EndpointArg where
  method : String
  path : String
  args : List String
  deriving DecidableEq, Repr

/-- Modelled from the spec: `Endpoint` is defined outside the sources at hand. It composes
the method, the path template and the path arguments into a request target. -/
def Endpoint (method path : String) (args : List String) : EndpointArg :=
  { method := method, path := path, args := args }

/-- Modelled from the spec: `prependArgs` is defined outside the sources at hand. It puts the
options to prepend in front of the caller's options, which keep their order. -/
def prependArgs (args : List callArg) (prepend : List callArg) : List callArg :=
  prepend ++ args

/-- Modelled from the spec: the construction of a request descriptor is outside the sources
at hand. The descriptor starts from the request target with initialised, empty query
parameters and headers and no body, and the options are applied to it in order; an error of
an option is the result and no descriptor is produced. -/
def newCall (endpoint : EndpointArg) (args : List callArg) :
    Except GoPanic (Option callBuilder × Option GoError) :=
  match applyArgs args
      { method := endpoint.method, path := endpoint.path, pathParams := endpoint.args,
        params := some ∅, headers := some ∅, body := none } with
  | .error p => .error p
  | .ok (_, some err) => .ok (none, some err)
  | .ok (call, none) => .ok (some call, none)

/-- A stand-in for `context.Context`; the wrappers only pass it on to `CallHttp`. -/
structure Context where
  id : Nat
  deriving DecidableEq, Repr

/-- The raw response envelope: status code, header mapping and raw body. -/
structure CallResponse where
  StatusCode : Int
  Header : List (String × String)
  Body : String
  deriving DecidableEq, Repr

/-- One invocation of `CallHttp`: the request target and the option list it received. -/
structure HttpCall where
  endpoint : EndpointArg
  args : List callArg

/-- The record of the effects of a wrapper: the invocations of `CallHttp` and the responses
handed to a response resolver, oldest first. -/
structure Trace where
  httpCalls : List HttpCall
  resolved : List CallResponse

/-- The trace after one more invocation of `CallHttp`. -/
def Trace.recordHttp (t : Trace) (call : HttpCall) : Trace :=
  { t with httpCalls := t.httpCalls ++ [call] }

/-- The trace after one more invocation of a response resolver. -/
def Trace.recordResolve (t : Trace) (resp : CallResponse) : Trace :=
  { t with resolved := t.resolved ++ [resp] }

/-- The client, as far as the sweep wrappers use it. `Client.CallHttp` and the path constants
`pathSweepConfigs`, `pathSweepConfig`, `pathSweeps` and `pathSweep` are defined outside the
sources at hand and are parameters here: `roundTrip` is what an invocation of `CallHttp`
returns (a response, or an error when `err != nil`). -/
structure Client where
  roundTrip : Context → EndpointArg → List callArg → Except GoError CallResponse
  pathSweepConfigs : String
  pathSweepConfig : String
  pathSweeps : String
  pathSweep : String

/-- An invocation of `c.CallHttp(ctx, endpoint, args...)`: it returns what the call returns
and records the invocation. -/
def Client.CallHttp (c : Client) (ctx : Context) (endpoint : EndpointArg)
    (args : List callArg) (t : Trace) : Except GoError CallResponse × Trace :=
  (c.roundTrip ctx endpoint args, t.recordHttp { endpoint := endpoint, args := args })

/-! ## Response resolution -/

/-- The JSON decoders the resolvers need for a result type `A`: a single object, a list, and
the structured error body (its message and field-level details). -/
structure Codec (A : Type) where
  object : String → Option A
  list : String → Option (List A)
  errorBody : String → Option (String × List String)

/-- Whether a status code is in the success range (2xx). -/
def isSuccess (code : Int) : Bool :=
  decide (200 ≤ code) && decide (code < 300)

/-- Modelled from the spec: the error resolution is outside the sources at hand. A structured
error body is decoded into a typed error; if that decode fails, the fallback is a generic
`HTTPError` carrying the status code and the raw body text. -/
def errorOf {A : Type} (dec : Codec A) (resp : CallResponse) : GoError :=
  match dec.errorBody resp.Body with
  | some (message, details) => .APIError resp.StatusCode message details
  | none => .HTTPError resp.StatusCode resp.Body

/-- Modelled from the spec: `CompletedObjectOrError` is defined outside the sources at hand.
With a status in the success range, an empty body resolves to "no value", a body is decoded,
and a decode failure is a `MalformedResponse` error; with a status outside the success range
the result is the error of `errorOf`. -/
def CompletedObjectOrError {A : Type} (dec : Codec A) (resp : CallResponse) :
    Option A × Option GoError :=
  if isSuccess resp.StatusCode then
    if resp.Body = "" then (none, none)
    else
      match dec.object resp.Body with
      | some value => (some value, none)
      | none => (none, some (.MalformedResponse resp.Body))
  else (none, some (errorOf dec resp))

/-- Modelled from the spec: `CompletedListOrError` is defined outside the sources at hand. It
is the list form of the same resolution as `CompletedObjectOrError`. -/
def CompletedListOrError {A : Type} (dec : Codec A) (resp : CallResponse) :
    Option (List A) × Option GoError :=
  if isSuccess resp.StatusCode then
    if resp.Body = "" then (none, none)
    else
      match dec.list resp.Body with
      | some values => (some values, none)
      | none => (none, some (.MalformedResponse resp.Body))
  else (none, some (errorOf dec resp))

/-! ## Request bodies -/

/-- The JSON encoding of a Go struct, as its `json` field tags prescribe. -/
class JsonMarshal (A : Type) where
  marshal : A → JsonObject

/-- A field tagged `omitempty` whose Go type is a pointer: it is left out when nil. -/
def omitempty (key : String) (field : Option String) : JsonObject :=
  match field with
  | none => []
  | some value => [(key, value)]

/-- Modelled from the spec: `JsonBody` is defined outside the sources at hand. It is the
option that adds a body: the JSON encoding of the value given. -/
def JsonBody {A : Type} [JsonMarshal A] (body : A) : callArg :=
  callBuilderFn fun call => .ok ({ call with body := some (JsonMarshal.marshal body) }, none)

/-- Modelled from the spec: `SweepConfigStatus` is declared outside the sources at hand; it is
a status string. -/
abbrev SweepConfigStatus := String

/-- The struct `CreateSweepConfig` of `sweep_api.go`. -/
structure CreateSweepConfig where
  AccountID : String
  WalletID : String
  Status : SweepConfigStatus
  PushPaymentMethodID : String
  PullPaymentMethodID : String
  StatementDescriptor : Option String
  MinimumBalance : Option String
  deriving DecidableEq, Repr

/-- The struct `UpdateSweepConfig` of `sweep_api.go`. -/
structure UpdateSweepConfig where
  AccountID : String
  SweepConfigID : String
  Status : Option SweepConfigStatus
  PushPaymentMethodID : Option String
  PullPaymentMethodID : Option String
  StatementDescriptor : Option String
  MinimumBalance : Option String
  deriving DecidableEq, Repr

/-- The `json` tags of `CreateSweepConfig`: `AccountID` is tagged `-` and has no member; the
last two fields are tagged `omitempty`. -/
instance : JsonMarshal CreateSweepConfig where
  marshal create :=
    [("walletID", create.WalletID), ("status", create.Status),
      ("pushPaymentMethodID", create.PushPaymentMethodID),
      ("pullPaymentMethodID", create.PullPaymentMethodID)]
    ++ omitempty "statementDescriptor" create.StatementDescriptor
    ++ omitempty "minimumBalance" create.MinimumBalance

/-- The `json` tags of `UpdateSweepConfig`: `AccountID` and `SweepConfigID` are tagged `-`
and have no member; every other field is tagged `omitempty`. -/
instance : JsonMarshal UpdateSweepConfig where
  marshal update :=
    omitempty "status" update.Status
    ++ omitempty "pushPaymentMethodID" update.PushPaymentMethodID
    ++ omitempty "pullPaymentMethodID" update.PullPaymentMethodID
    ++ omitempty "statementDescriptor" update.StatementDescriptor
    ++ omitempty "minimumBalance" update.MinimumBalance

/-! ## The sweep wrappers -/

section Wrappers

variable {SweepConfig Sweep : Type}

/-- The wrapper `Client.ListSweepConfigs` of `sweep_api.go`. -/
def Client.ListSweepConfigs (c : Client) (dec : Codec SweepConfig) (ctx : Context)
    (accountID : String) (t : Trace) : (Option (List SweepConfig) × Option GoError) × Trace :=
  match c.CallHttp ctx (Endpoint MethodGet c.pathSweepConfigs [accountID]) [AcceptJson] t with
  | (.error err, t1) => ((none, some (Errorf_v "listing sweep configs: " err)), t1)
  | (.ok resp, t1) => (CompletedListOrError dec resp, t1.recordResolve resp)

/-- The wrapper `Client.GetSweepConfig` of `sweep_api.go`. -/
def Client.GetSweepConfig (c : Client) (dec : Codec SweepConfig) (ctx : Context)
    (accountID : String) (sweepConfigID : String) (t : Trace) :
    (Option SweepConfig × Option GoError) × Trace :=
  match c.CallHttp ctx (Endpoint MethodGet c.pathSweepConfig [accountID, sweepConfigID])
      [AcceptJson] t with
  | (.error err, t1) => ((none, some (Errorf_v "getting sweep config: " err)), t1)
  | (.ok resp, t1) => (CompletedObjectOrError dec resp, t1.recordResolve resp)

/-- The wrapper `Client.CreateSweepConfig` of `sweep_api.go`. -/
def Client.CreateSweepConfig (c : Client) (dec : Codec SweepConfig) (ctx : Context)
    (create : CreateSweepConfig) (t : Trace) : (Option SweepConfig × Option GoError) × Trace :=
  match c.CallHttp ctx (Endpoint MethodPost c.pathSweepConfigs [create.AccountID])
      [AcceptJson, JsonBody create] t with
  | (.error err, t1) => ((none, some (Errorf_v "creating sweep config: " err)), t1)
  | (.ok resp, t1) => (CompletedObjectOrError dec resp, t1.recordResolve resp)

/-- The wrapper `Client.UpdateSweepConfig` of `sweep_api.go`. -/
def Client.UpdateSweepConfig (c : Client) (dec : Codec SweepConfig) (ctx : Context)
    (update : UpdateSweepConfig) (t : Trace) : (Option SweepConfig × Option GoError) × Trace :=
  match c.CallHttp ctx
      (Endpoint MethodPatch c.pathSweepConfig [update.AccountID, update.SweepConfigID])
      [AcceptJson, JsonBody update] t with
  | (.error err, t1) => ((none, some (Errorf_v "updating sweep config: " err)), t1)
  | (.ok resp, t1) => (CompletedObjectOrError dec resp, t1.recordResolve resp)

/-- The wrapper `Client.ListSweeps` of `sweep_api.go`. -/
def Client.ListSweeps (c : Client) (dec : Codec Sweep) (ctx : Context) (accountID : String)
    (walletID : String) (filters : List ListSweepsFilter) (t : Trace) :
    (Option (List Sweep) × Option GoError) × Trace :=
  match c.CallHttp ctx (Endpoint MethodGet c.pathSweeps [accountID, walletID])
      (prependArgs filters [AcceptJson]) t with
  | (.error err, t1) => ((none, some (Errorf_v "listing sweeps: " err)), t1)
  | (.ok resp, t1) => (CompletedListOrError dec resp, t1.recordResolve resp)

/-- The wrapper `Client.GetSweep` of `sweep_api.go`. -/
def Client.GetSweep (c : Client) (dec : Codec Sweep) (ctx : Context) (accountID : String)
    (walletID : String) (sweepID : String) (t : Trace) :
    (Option Sweep × Option GoError) × Trace :=
  match c.CallHttp ctx (Endpoint MethodGet c.pathSweep [accountID, walletID, sweepID])
      [AcceptJson] t with
  | (.error err, t1) => ((none, some (Errorf_v "getting sweep: " err)), t1)
  | (.ok resp, t1) => (CompletedObjectOrError dec resp, t1.recordResolve resp)

end Wrappers

/-! ## The transfer outcome -/

/-- Modelled from the spec: `TransferStarted` is declared outside the sources at hand. It is
the minimal asynchronous handle: an identifier and a status. -/
structure TransferStarted where
  TransferID : String
  Status : String
  deriving DecidableEq, Repr

/-- Modelled from the spec: the outcome type of a transfer is declared outside the sources at
hand. It is a sum type with two variants, the fully materialised resource and the handle of a
resource still processing. -/
inductive Outcome (T : Type) where
  | completed (value : T)
  | started (handle : TransferStarted)

/-- Modelled from the spec: the accessor `.Completed()` is defined outside the sources at
hand. It returns `(value, ok)`, and the zero value with `ok = false` on the other variant. -/
def Outcome.Completed {T : Type} : Outcome T → Option T × Bool
  | .completed value => (some value, true)
  | .started _ => (none, false)

/-- Modelled from the spec: the accessor `.Started()` is defined outside the sources at
hand. It returns `(value, ok)`, and the zero value with `ok = false` on the other variant. -/
def Outcome.Started {T : Type} : Outcome T → Option TransferStarted × Bool
  | .completed _ => (none, false)
  | .started handle => (some handle, true)

/-- Modelled from the spec: the resolution of the response to `CreateTransfer` is outside the
sources at hand. A status of synchronous completion (200 or 201) resolves the body into the
resource, a status of asynchronous acceptance (202) resolves it into the handle, and any
other status or a decode failure is an error and produces no outcome. -/
def resolveOutcome {T : Type} (dec : Codec T) (decStarted : String → Option TransferStarted)
    (resp : CallResponse) : Except GoError (Outcome T) :=
  if resp.StatusCode = 200 ∨ resp.StatusCode = 201 then
    match dec.object resp.Body with
    | some value => .ok (.completed value)
    | none => .error (.MalformedResponse resp.Body)
  else if resp.StatusCode = 202 then
    match decStarted resp.Body with
    | some handle => .ok (.started handle)
    | none => .error (.MalformedResponse resp.Body)
  else .error (errorOf dec resp)

/-! ## Auxiliary definitions for the statements -/

/-- The option that assigns `value` to the query parameter `key`; the four sweep filters are
instances of it (`FilterCall.filter_eq_setParam`). -/
def setParam (key value : String) : callArg :=
  fun call =>
    match mapAssign call.params key value with
    | .error p => .error p
    | .ok ps => .ok ({ call with params := ps }, none)

/-- The query key a filter constructor writes. -/
def FilterCall.key : FilterCall → String
  | .status _ => "status"
  | .statementDescriptor _ => "statementDescriptor"
  | .skip _ => "skip"
  | .count _ => "count"

/-- The value a filter constructor writes under its key. -/
def FilterCall.value : FilterCall → String
  | .status s => s
  | .statementDescriptor d => d
  | .skip n => toString n
  | .count n => toString n

/-- Running the options `ys` after the outcome of an earlier run. -/
def andThen (r : Applied) (ys : List callArg) : Applied :=
  match r with
  | .error p => .error p
  | .ok (call1, some err) => .ok (call1, some err)
  | .ok (call1, none) => applyArgs ys call1

/-- A request descriptor with initialised, empty query parameters and headers. -/
def blankCall : callBuilder :=
  { method := "GET", path := "/", pathParams := [], params := some ∅, headers := some ∅,
    body := none }

/-- The query parameters after the filter constructor calls `fs`, applied left to right to
the map `m`. -/
def writeAll (fs : List FilterCall) (m : StrMap) : StrMap :=
  fs.foldl (fun acc f => acc.insert f.key f.value) m

/-- A codec for string results that decodes every body to itself and no error body. -/
def textCodec : Codec String :=
  { object := fun body => some body, list := fun body => some [body],
    errorBody := fun _ => none }

/-- A client whose every HTTP call fails with a transport error. -/
def refusedClient : Client :=
  { roundTrip := fun _ _ _ => .error (.TransportError "connection refused"),
    pathSweepConfigs := "/accounts/%s/sweep-configs",
    pathSweepConfig := "/accounts/%s/sweep-configs/%s",
    pathSweeps := "/accounts/%s/wallets/%s/sweeps",
    pathSweep := "/accounts/%s/wallets/%s/sweeps/%s" }

/-- A client whose every HTTP call is answered with status 404. -/
def notFoundClient : Client :=
  { roundTrip := fun _ _ _ => .ok { StatusCode := 404, Header := [], Body := "not found" },
    pathSweepConfigs := "/accounts/%s/sweep-configs",
    pathSweepConfig := "/accounts/%s/sweep-configs/%s",
    pathSweeps := "/accounts/%s/wallets/%s/sweeps",
    pathSweep := "/accounts/%s/wallets/%s/sweeps/%s" }

/-- A decoder of the asynchronous handle that accepts the body `accepted`. -/
def acceptedHandle (body : String) : Option TransferStarted :=
  if body = "accepted" then some { TransferID := "tr-1", Status := "pending" } else none

/-- A sweep-config creation request with both optional fields absent. -/
def sampleCreate : CreateSweepConfig :=
  { AccountID := "acct", WalletID := "wallet", Status := "enabled",
    PushPaymentMethodID := "push", PullPaymentMethodID := "pull",
    StatementDescriptor := none, MinimumBalance := none }

/-- A sweep-config update that changes the status only. -/
def sampleUpdate : UpdateSweepConfig :=
  { AccountID := "acct", SweepConfigID := "config", Status := some "disabled",
    PushPaymentMethodID := none, PullPaymentMethodID := none,
    StatementDescriptor := none, MinimumBalance := none }

/-- The trace before any call. -/
def emptyTrace : Trace :=
  { httpCalls := [], resolved := [] }

/-! ## Lemmas on options -/

theorem FilterCall.filter_eq_setParam (f : FilterCall) : f.filter = setParam f.key f.value := by
  cases f <;> rfl

theorem setParam_some (key value : String) (call : callBuilder) (m : StrMap)
    (h : call.params = some m) :
    setParam key value call = .ok ({ call with params := some (m.insert key value) }, none) := by
  simp [setParam, mapAssign, h]

theorem setParam_none (key value : String) (call : callBuilder) (h : call.params = none) :
    setParam key value call = .error .assignToNilMap := by
  simp [setParam, mapAssign, h]

theorem applyArgs_append (xs ys : List callArg) (call : callBuilder) :
    applyArgs (xs ++ ys) call = andThen (applyArgs xs call) ys := by
  induction xs generalizing call with
  | nil => rfl
  | cons x xs ih =>
    simp only [List.cons_append, applyArgs]
    rcases hx : x call with p | ⟨call1, _ | err⟩
    · rfl
    · simpa using ih call1
    · rfl

/-- An earlier write of `key` is invisible once a later option of the list writes `key`
again, whatever sweep filters run in between. -/
theorem applyArgs_forget_write (key a b : String) (mid : List FilterCall) (call : callBuilder)
    (m : StrMap) :
    applyArgs (mid.map FilterCall.filter ++ [setParam key b])
        { call with params := some (m.insert key a) }
      = applyArgs (mid.map FilterCall.filter ++ [setParam key b])
        { call with params := some m } := by
  induction mid generalizing m with
  | nil =>
    simp [applyArgs, setParam, mapAssign, Finmap.insert_insert]
  | cons f mid ih =>
    simp only [List.map_cons, List.cons_append, applyArgs, FilterCall.filter_eq_setParam]
    rw [setParam_some f.key f.value _ (m.insert key a) rfl, setParam_some f.key f.value _ m rfl]
    simp only
    by_cases hk : f.key = key
    · rw [hk, Finmap.insert_insert]
    · rw [Finmap.insert_insert_of_ne m (Ne.symm hk)]
      exact ih (m.insert f.key f.value)

/-- After any sweep filters followed by a write of `key`, the run succeeds and `key` holds
the value written last. -/
theorem applyArgs_last_write (key b : String) (mid : List FilterCall) (call : callBuilder)
    (m : StrMap) (h : call.params = some m) :
    ∃ call1, applyArgs (mid.map FilterCall.filter ++ [setParam key b]) call = .ok (call1, none)
      ∧ call1.param key = some b := by
  induction mid generalizing call m with
  | nil =>
    refine ⟨{ call with params := some (m.insert key b) }, ?_, ?_⟩
    · simp only [List.map_nil, List.nil_append, applyArgs]
      rw [setParam_some key b call m h]
    · simp [callBuilder.param, Finmap.lookup_insert]
  | cons f mid ih =>
    simp only [List.map_cons, List.cons_append, applyArgs, FilterCall.filter_eq_setParam]
    rw [setParam_some f.key f.value call m h]
    exact ih _ (m.insert f.key f.value) rfl

/-! ## The sweep filters as descriptor transformations -/

/-- C4: on a call builder whose params map is initialised, `WithSweepStatus v` (respectively
`WithSweepStatementDescriptor v`) returns no error, sets `params["status"]` (respectively
`params["statementDescriptor"]`) to `v`, and leaves the method, the path, the path
parameters, the headers, the body and every other entry of params unchanged. -/
theorem sweep_filter_sets_its_key_only (call : callBuilder) (v : String)
    (h : call.params ≠ none) :
    (∃ call1, WithSweepStatus v call = .ok (call1, none)
        ∧ call1.param "status" = some v
        ∧ call1.method = call.method ∧ call1.path = call.path
        ∧ call1.pathParams = call.pathParams
        ∧ call1.headers = call.headers ∧ call1.body = call.body
        ∧ ∀ key, key ≠ "status" → call1.param key = call.param key)
    ∧ (∃ call1, WithSweepStatementDescriptor v call = .ok (call1, none)
        ∧ call1.param "statementDescriptor" = some v
        ∧ call1.method = call.method ∧ call1.path = call.path
        ∧ call1.pathParams = call.pathParams
        ∧ call1.headers = call.headers ∧ call1.body = call.body
        ∧ ∀ key, key ≠ "statementDescriptor" → call1.param key = call.param key) := by
  obtain ⟨m, hm⟩ := Option.ne_none_iff_exists'.mp h
  constructor
  · refine ⟨{ call with params := some (m.insert "status" v) },
      setParam_some "status" v call m hm, ?_, rfl, rfl, rfl, rfl, rfl, ?_⟩
    · simp [callBuilder.param, Finmap.lookup_insert]
    · intro key hkey
      simp [callBuilder.param, hm, Finmap.lookup_insert_of_ne m hkey]
  · refine ⟨{ call with params := some (m.insert "statementDescriptor" v) },
      setParam_some "statementDescriptor" v call m hm, ?_, rfl, rfl, rfl, rfl, rfl, ?_⟩
    · simp [callBuilder.param, Finmap.lookup_insert]
    · intro key hkey
      simp [callBuilder.param, hm, Finmap.lookup_insert_of_ne m hkey]

/-- Witness of C4 on the blank descriptor and the status `pending`. -/
theorem sweep_filter_sets_its_key_only_witness :
    blankCall.params ≠ none
    ∧ (∃ call1, WithSweepStatus "pending" blankCall = .ok (call1, none)
        ∧ call1.param "status" = some "pending"
        ∧ call1.method = blankCall.method ∧ call1.path = blankCall.path
        ∧ call1.pathParams = blankCall.pathParams
        ∧ call1.headers = blankCall.headers ∧ call1.body = blankCall.body
        ∧ ∀ key, key ≠ "status" → call1.param key = blankCall.param key) :=
  ⟨by simp [blankCall],
    (sweep_filter_sets_its_key_only blankCall "pending" (by simp [blankCall])).1⟩

/-- C2: on a call builder whose params map is initialised, `WithSweepStatus a` followed by
`WithSweepStatus b` yields the same builder as `WithSweepStatus b` alone, with
`params["status"] = b`; the same holds for `WithSweepStatementDescriptor` and the key
`statementDescriptor`; it still holds with any number of sweep filters `mid` applied in
between; and applying a list of options in two groups `xs` then `ys` is applying `xs ++ ys`. -/
theorem sweep_filter_last_write_wins (call : callBuilder) (a b : String)
    (mid : List FilterCall) (xs ys : List callArg) (h : call.params ≠ none) :
    (applyArgs [WithSweepStatus a, WithSweepStatus b] call = WithSweepStatus b call
      ∧ ∃ call1, WithSweepStatus b call = .ok (call1, none)
          ∧ call1.param "status" = some b)
    ∧ (applyArgs [WithSweepStatementDescriptor a, WithSweepStatementDescriptor b] call
          = WithSweepStatementDescriptor b call
      ∧ ∃ call1, WithSweepStatementDescriptor b call = .ok (call1, none)
          ∧ call1.param "statementDescriptor" = some b)
    ∧ (applyArgs (WithSweepStatus a :: (mid.map FilterCall.filter ++ [WithSweepStatus b])) call
          = applyArgs (mid.map FilterCall.filter ++ [WithSweepStatus b]) call
      ∧ ∃ call1,
          applyArgs (WithSweepStatus a :: (mid.map FilterCall.filter ++ [WithSweepStatus b]))
              call = .ok (call1, none)
          ∧ call1.param "status" = some b)
    ∧ (applyArgs (WithSweepStatementDescriptor a
            :: (mid.map FilterCall.filter ++ [WithSweepStatementDescriptor b])) call
          = applyArgs (mid.map FilterCall.filter ++ [WithSweepStatementDescriptor b]) call
      ∧ ∃ call1,
          applyArgs (WithSweepStatementDescriptor a
              :: (mid.map FilterCall.filter ++ [WithSweepStatementDescriptor b])) call
            = .ok (call1, none)
          ∧ call1.param "statementDescriptor" = some b)
    ∧ applyArgs (xs ++ ys) call = andThen (applyArgs xs call) ys := by
  obtain ⟨m, hm⟩ := Option.ne_none_iff_exists'.mp h
  have hcall : call = { call with params := some m } := by
    cases call; simp_all
  have key_fact : ∀ key : String,
      applyArgs (setParam key a :: (mid.map FilterCall.filter ++ [setParam key b])) call
          = applyArgs (mid.map FilterCall.filter ++ [setParam key b]) call := by
    intro key
    simp only [applyArgs]
    rw [setParam_some key a call m hm]
    simp only
    rw [applyArgs_forget_write key a b mid call m, ← hcall]
  have last_fact : ∀ key : String, ∃ call1,
      applyArgs (setParam key a :: (mid.map FilterCall.filter ++ [setParam key b])) call
          = .ok (call1, none) ∧ call1.param key = some b := by
    intro key
    rw [key_fact key]
    exact applyArgs_last_write key b mid call m hm
  have pair_fact : ∀ key : String,
      applyArgs [setParam key a, setParam key b] call = setParam key b call := by
    intro key
    simp only [applyArgs]
    rw [setParam_some key a call m hm]
    simp only
    rw [setParam_some key b _ (m.insert key a) rfl, setParam_some key b call m hm,
      Finmap.insert_insert]
  have one_fact : ∀ key : String, ∃ call1,
      setParam key b call = .ok (call1, none) ∧ call1.param key = some b := by
    intro key
    refine ⟨{ call with params := some (m.insert key b) }, setParam_some key b call m hm, ?_⟩
    simp [callBuilder.param, Finmap.lookup_insert]
  exact ⟨⟨pair_fact "status", one_fact "status"⟩,
    ⟨pair_fact "statementDescriptor", one_fact "statementDescriptor"⟩,
    ⟨key_fact "status", last_fact "status"⟩,
    ⟨key_fact "statementDescriptor", last_fact "statementDescriptor"⟩,
    applyArgs_append xs ys call⟩

/-- Witness of C2 on the blank descriptor, with a pagination filter and a statement
descriptor filter between the two status filters. -/
theorem sweep_filter_last_write_wins_witness :
    blankCall.params ≠ none
    ∧ applyArgs [WithSweepStatus "pending", WithSweepStatus "paid"] blankCall
        = WithSweepStatus "paid" blankCall
    ∧ applyArgs (WithSweepStatus "pending"
          :: ([FilterCall.skip 0, FilterCall.statementDescriptor "rent"].map FilterCall.filter
              ++ [WithSweepStatus "paid"])) blankCall
        = applyArgs ([FilterCall.skip 0, FilterCall.statementDescriptor "rent"].map
              FilterCall.filter ++ [WithSweepStatus "paid"]) blankCall :=
  ⟨by simp [blankCall],
    (sweep_filter_last_write_wins blankCall "pending" "paid"
      [FilterCall.skip 0, FilterCall.statementDescriptor "rent"] [] []
      (by simp [blankCall])).1.1,
    (sweep_filter_last_write_wins blankCall "pending" "paid"
      [FilterCall.skip 0, FilterCall.statementDescriptor "rent"] [] []
      (by simp [blankCall])).2.2.1.1⟩

/-! ## The query of `ListSweeps` -/

/-- A map is determined by its entries: the scenario's three keys and nothing else. -/
theorem scenario_params_eq (s : String) (m : StrMap)
    (h1 : m.lookup "status" = some s) (h2 : m.lookup "skip" = some "0")
    (h3 : m.lookup "count" = some "10")
    (h4 : ∀ key, key ≠ "status" → key ≠ "skip" → key ≠ "count" → m.lookup key = none) :
    m = Finmap.insert "count" "10" (Finmap.insert "skip" "0" (Finmap.insert "status" s ∅)) := by
  apply Finmap.ext_lookup
  intro key
  by_cases hc : key = "count"
  · subst hc
    rw [h3, Finmap.lookup_insert]
  · rw [Finmap.lookup_insert_of_ne _ hc]
    by_cases hk : key = "skip"
    · subst hk
      rw [h2, Finmap.lookup_insert]
    · rw [Finmap.lookup_insert_of_ne _ hk]
      by_cases hs : key = "status"
      · subst hs
        rw [h1, Finmap.lookup_insert]
      · rw [Finmap.lookup_insert_of_ne _ hs, Finmap.lookup_empty]
        exact h4 key hs hk hc

/-- The filters of a permutation of three filters, listed. -/
theorem perm_three_cases {α : Type} (a b c : α) (fs : List α) (h : fs.Perm [a, b, c]) :
    fs = [a, b, c] ∨ fs = [b, a, c] ∨ fs = [b, c, a] ∨ fs = [a, c, b] ∨ fs = [c, a, b]
      ∨ fs = [c, b, a] := by
  have hmem := List.mem_permutations'.mpr h
  simp [List.permutations', List.permutations'Aux] at hmem
  tauto

/-- C1: for every account ID, wallet ID and status `s`, and every order `fs` of the filters
`WithSweepStatus s`, `WithSweepSkip 0` and `WithSweepCount 10`, the request that `ListSweeps`
hands to `CallHttp` is built into a descriptor whose query parameters are the same map in
every order: `status = s`, `skip = 0`, `count = 10` and no other key. -/
theorem list_sweeps_query_order_independent {Sweep : Type} (c : Client) (dec : Codec Sweep)
    (ctx : Context) (accountID walletID s : String) (fs : List ListSweepsFilter) (t : Trace)
    (h : fs.Perm [WithSweepStatus s, WithSweepSkip 0, WithSweepCount 10]) :
    ∃ call,
      (c.ListSweeps dec ctx accountID walletID fs t).2.httpCalls
          = t.httpCalls ++ [{ endpoint := Endpoint MethodGet c.pathSweeps [accountID, walletID],
                              args := prependArgs fs [AcceptJson] }]
      ∧ newCall (Endpoint MethodGet c.pathSweeps [accountID, walletID])
          (prependArgs fs [AcceptJson]) = .ok (some call, none)
      ∧ call.params = some (Finmap.insert "count" "10"
          (Finmap.insert "skip" "0" (Finmap.insert "status" s ∅)))
      ∧ call.paramKeys = {"status", "skip", "count"}
      ∧ call.param "status" = some s ∧ call.param "skip" = some "0"
      ∧ call.param "count" = some "10" := by
  have hskip : toString (0 : Int) = "0" := by decide
  have hcount : toString (10 : Int) = "10" := by decide
  refine ⟨{ method := MethodGet, path := c.pathSweeps, pathParams := [accountID, walletID],
            params := some (Finmap.insert "count" "10"
              (Finmap.insert "skip" "0" (Finmap.insert "status" s ∅))),
            headers := some (Finmap.insert "Accept" "application/json" ∅),
            body := none }, ?_, ?_, rfl, ?_, ?_, ?_, ?_⟩
  · simp only [Client.ListSweeps, Client.CallHttp, Trace.recordHttp]
    cases c.roundTrip ctx (Endpoint MethodGet c.pathSweeps [accountID, walletID])
      (prependArgs fs [AcceptJson]) <;> rfl
  · have hmap : ∀ m : StrMap, m.lookup "status" = some s → m.lookup "skip" = some "0" →
        m.lookup "count" = some "10" →
        (∀ key, key ≠ "status" → key ≠ "skip" → key ≠ "count" → m.lookup key = none) →
        (Except.ok (some
            { method := MethodGet, path := c.pathSweeps,
              pathParams := [accountID, walletID], params := some m,
              headers := some (Finmap.insert "Accept" "application/json" ∅),
              body := none }, none) : Except GoPanic (Option callBuilder × Option GoError))
          = Except.ok (some
            { method := MethodGet, path := c.pathSweeps,
              pathParams := [accountID, walletID],
              params := some (Finmap.insert "count" "10"
                (Finmap.insert "skip" "0" (Finmap.insert "status" s ∅))),
              headers := some (Finmap.insert "Accept" "application/json" ∅),
              body := none }, none) := by
      intro m h1 h2 h3 h4
      rw [scenario_params_eq s m h1 h2 h3 h4]
    have hother : ∀ (m : StrMap) (key : String), key ≠ "status" → key ≠ "skip" →
        key ≠ "count" → m.lookup key = none →
        ∀ k1 v1 k2 v2 k3 v3, (k1 = "status" ∨ k1 = "skip" ∨ k1 = "count") →
          (k2 = "status" ∨ k2 = "skip" ∨ k2 = "count") →
          (k3 = "status" ∨ k3 = "skip" ∨ k3 = "count") →
          (Finmap.insert k3 v3 (Finmap.insert k2 v2 (Finmap.insert k1 v1 m))).lookup key
            = none := by
      intro m key hs hk hc hm k1 v1 k2 v2 k3 v3 h1 h2 h3
      have n1 : key ≠ k1 := by rcases h1 with h | h | h <;> simpa [h]
      have n2 : key ≠ k2 := by rcases h2 with h | h | h <;> simpa [h]
      have n3 : key ≠ k3 := by rcases h3 with h | h | h <;> simpa [h]
      rw [Finmap.lookup_insert_of_ne _ n3, Finmap.lookup_insert_of_ne _ n2,
        Finmap.lookup_insert_of_ne _ n1, hm]
    rcases perm_three_cases _ _ _ fs h with h | h | h | h | h | h <;> subst h <;>
      simp only [newCall, prependArgs, List.cons_append, List.nil_append, applyArgs, AcceptJson,
        WithSweepStatus, WithSweepSkip, WithSweepCount, Skip, Count, callBuilderFn, mapAssign,
        Endpoint, hskip, hcount] <;>
      refine hmap _ (by simp (disch := decide) [Finmap.lookup_insert,
          Finmap.lookup_insert_of_ne])
        (by simp (disch := decide) [Finmap.lookup_insert, Finmap.lookup_insert_of_ne])
        (by simp (disch := decide) [Finmap.lookup_insert, Finmap.lookup_insert_of_ne])
        (fun key hs hk hc => hother ∅ key hs hk hc (Finmap.lookup_empty key) _ _ _ _ _ _
          (by simp) (by simp) (by simp))
  · ext key
    simp only [callBuilder.paramKeys, Finmap.mem_keys, Finmap.mem_insert, Finmap.not_mem_empty,
      Finset.mem_insert, Finset.mem_singleton]
    tauto
  · simp (disch := decide) [callBuilder.param, Finmap.lookup_insert, Finmap.lookup_insert_of_ne]
  · simp (disch := decide) [callBuilder.param, Finmap.lookup_insert, Finmap.lookup_insert_of_ne]
  · simp [callBuilder.param, Finmap.lookup_insert]

/-- Witness of C1 with the filters supplied as count, status, skip. -/
theorem list_sweeps_query_order_independent_witness :
    [WithSweepCount 10, WithSweepStatus "pending", WithSweepSkip 0].Perm
      [WithSweepStatus "pending", WithSweepSkip 0, WithSweepCount 10]
    ∧ ∃ call,
      (notFoundClient.ListSweeps textCodec { id := 0 } "acct" "wallet"
          [WithSweepCount 10, WithSweepStatus "pending", WithSweepSkip 0] emptyTrace).2.httpCalls
          = emptyTrace.httpCalls
            ++ [{ endpoint := Endpoint MethodGet notFoundClient.pathSweeps ["acct", "wallet"],
                  args := prependArgs
                    [WithSweepCount 10, WithSweepStatus "pending", WithSweepSkip 0]
                    [AcceptJson] }]
      ∧ newCall (Endpoint MethodGet notFoundClient.pathSweeps ["acct", "wallet"])
          (prependArgs [WithSweepCount 10, WithSweepStatus "pending", WithSweepSkip 0]
            [AcceptJson]) = .ok (some call, none)
      ∧ call.params = some (Finmap.insert "count" "10"
          (Finmap.insert "skip" "0" (Finmap.insert "status" "pending" ∅)))
      ∧ call.paramKeys = {"status", "skip", "count"}
      ∧ call.param "status" = some "pending" ∧ call.param "skip" = some "0"
      ∧ call.param "count" = some "10" :=
  ⟨(List.Perm.swap (WithSweepStatus "pending") (WithSweepCount 10) [WithSweepSkip 0]).trans
      ((List.Perm.swap (WithSweepSkip 0) (WithSweepCount 10) []).cons (WithSweepStatus "pending")),
    list_sweeps_query_order_independent notFoundClient textCodec { id := 0 } "acct" "wallet"
      "pending" [WithSweepCount 10, WithSweepStatus "pending", WithSweepSkip 0] emptyTrace
      ((List.Perm.swap (WithSweepStatus "pending") (WithSweepCount 10) [WithSweepSkip 0]).trans
        ((List.Perm.swap (WithSweepSkip 0) (WithSweepCount 10) []).cons
          (WithSweepStatus "pending")))⟩

/-! ## Pagination filters -/

theorem applyArgs_filters (fs : List FilterCall) (call : callBuilder) (m : StrMap)
    (h : call.params = some m) :
    applyArgs (fs.map FilterCall.filter) call
      = .ok ({ call with params := some (writeAll fs m) }, none) := by
  induction fs generalizing call m with
  | nil =>
    cases call
    simp_all [applyArgs, writeAll]
  | cons f fs ih =>
    simp only [List.map_cons, applyArgs, FilterCall.filter_eq_setParam]
    rw [setParam_some f.key f.value call m h]
    exact ih _ (m.insert f.key f.value) rfl

theorem writeAll_append (fs gs : List FilterCall) (m : StrMap) :
    writeAll (fs ++ gs) m = writeAll gs (writeAll fs m) := by
  simp [writeAll, List.foldl_append]

/-- Last write wins: after the constructor calls `fs`, a key holds the value of the last call
of `fs` that writes it, and its earlier value when no call writes it. -/
theorem writeAll_lookup (fs : List FilterCall) (m : StrMap) (key : String) :
    (writeAll fs m).lookup key
      = match fs.reverse.find? (fun f => f.key = key) with
        | some f => some f.value
        | none => m.lookup key := by
  induction fs using List.reverseRecOn with
  | nil => simp [writeAll]
  | append_singleton fs f ih =>
    rw [writeAll_append, List.reverse_append]
    simp only [List.reverse_cons, List.reverse_nil, List.nil_append, List.singleton_append,
      List.find?_cons]
    by_cases hk : f.key = key
    · subst hk
      simp [writeAll, Finmap.lookup_insert]
    · have hne : key ≠ f.key := fun h => hk h.symm
      simp only [hk, decide_False]
      rw [← ih]
      simp [writeAll, Finmap.lookup_insert_of_ne _ hne]

/-- C5: `WithSweepSkip n` is the generic option `Skip n` and `WithSweepCount n` is the generic
option `Count n`; on a call builder whose params map is initialised they return no error and
contribute the query keys `skip` and `count`, leaving every other entry unchanged; and every
list `fs` of calls of the four sweep filter constructors, mixed in any way, is applied
without error, each query key holding the value of the last filter of the list writing it
(its earlier value when none does), so every filter of the list contributes its key. -/
theorem sweep_pagination_is_generic (n : Int) (call : callBuilder) (fs : List FilterCall)
    (h : call.params ≠ none) :
    WithSweepSkip n = Skip n ∧ WithSweepCount n = Count n
    ∧ WithSweepSkip n call = Skip n call ∧ WithSweepCount n call = Count n call
    ∧ (∃ call1, WithSweepSkip n call = .ok (call1, none)
        ∧ call1.param "skip" = some (toString n)
        ∧ ∀ key, key ≠ "skip" → call1.param key = call.param key)
    ∧ (∃ call1, WithSweepCount n call = .ok (call1, none)
        ∧ call1.param "count" = some (toString n)
        ∧ ∀ key, key ≠ "count" → call1.param key = call.param key)
    ∧ (∃ call1, applyArgs (fs.map FilterCall.filter) call = .ok (call1, none)
        ∧ call1.method = call.method ∧ call1.path = call.path
        ∧ call1.pathParams = call.pathParams
        ∧ call1.headers = call.headers ∧ call1.body = call.body
        ∧ (∀ key, call1.param key
            = match fs.reverse.find? (fun f => f.key = key) with
              | some f => some f.value
              | none => call.param key)
        ∧ ∀ f, f ∈ fs → f.key ∈ call1.paramKeys) := by
  obtain ⟨m, hm⟩ := Option.ne_none_iff_exists'.mp h
  refine ⟨rfl, rfl, rfl, rfl, ?_, ?_, ?_⟩
  · refine ⟨{ call with params := some (m.insert "skip" (toString n)) },
      setParam_some "skip" (toString n) call m hm, ?_, ?_⟩
    · simp [callBuilder.param, Finmap.lookup_insert]
    · intro key hkey
      simp [callBuilder.param, hm, Finmap.lookup_insert_of_ne m hkey]
  · refine ⟨{ call with params := some (m.insert "count" (toString n)) },
      setParam_some "count" (toString n) call m hm, ?_, ?_⟩
    · simp [callBuilder.param, Finmap.lookup_insert]
    · intro key hkey
      simp [callBuilder.param, hm, Finmap.lookup_insert_of_ne m hkey]
  · refine ⟨{ call with params := some (writeAll fs m) }, applyArgs_filters fs call m hm,
      rfl, rfl, rfl, rfl, rfl, ?_, ?_⟩
    · intro key
      simp only [callBuilder.param, hm]
      exact writeAll_lookup fs m key
    · intro f hf
      simp only [callBuilder.paramKeys, Finmap.mem_keys]
      rw [← Finmap.lookup_isSome, writeAll_lookup fs m f.key]
      have hfind : (fs.reverse.find? (fun g => g.key = f.key)).isSome := by
        rw [List.find?_isSome]
        exact ⟨f, List.mem_reverse.mpr hf, by simp⟩
      obtain ⟨g, hg⟩ := Option.isSome_iff_exists.mp hfind
      rw [hg]
      rfl

/-- Witness of C5 on the blank descriptor with the four filters mixed in one list. -/
theorem sweep_pagination_is_generic_witness :
    blankCall.params ≠ none
    ∧ WithSweepSkip 20 blankCall = Skip 20 blankCall
    ∧ (∃ call1,
        applyArgs ([FilterCall.skip 20, FilterCall.status "paid", FilterCall.count 10,
            FilterCall.statementDescriptor "rent"].map FilterCall.filter) blankCall
          = .ok (call1, none)
        ∧ call1.method = blankCall.method ∧ call1.path = blankCall.path
        ∧ call1.pathParams = blankCall.pathParams
        ∧ call1.headers = blankCall.headers ∧ call1.body = blankCall.body
        ∧ (∀ key, call1.param key
            = match [FilterCall.skip 20, FilterCall.status "paid", FilterCall.count 10,
                  FilterCall.statementDescriptor "rent"].reverse.find?
                  (fun f => f.key = key) with
              | some f => some f.value
              | none => blankCall.param key)
        ∧ ∀ f, f ∈ [FilterCall.skip 20, FilterCall.status "paid", FilterCall.count 10,
            FilterCall.statementDescriptor "rent"] → f.key ∈ call1.paramKeys) :=
  ⟨by simp [blankCall],
    (sweep_pagination_is_generic 20 blankCall
      [FilterCall.skip 20, FilterCall.status "paid", FilterCall.count 10,
        FilterCall.statementDescriptor "rent"] (by simp [blankCall])).2.2.1,
    (sweep_pagination_is_generic 20 blankCall
      [FilterCall.skip 20, FilterCall.status "paid", FilterCall.count 10,
        FilterCall.statementDescriptor "rent"] (by simp [blankCall])).2.2.2.2.2.2⟩

/-! ## The options handed to `CallHttp` by `ListSweeps` -/

/-- C9: for every list of filters `fs`, the one invocation of `CallHttp` made by `ListSweeps`
receives the option list `AcceptJson()` followed by the elements of `fs` in the same order,
of length `1 + fs.length`, and with no filters it receives `AcceptJson()` alone. -/
theorem list_sweeps_keeps_filter_order {Sweep : Type} (c : Client) (dec : Codec Sweep)
    (ctx : Context) (accountID walletID : String) (fs : List ListSweepsFilter) (t : Trace) :
    (c.ListSweeps dec ctx accountID walletID fs t).2.httpCalls
        = t.httpCalls ++ [{ endpoint := Endpoint MethodGet c.pathSweeps [accountID, walletID],
                            args := AcceptJson :: fs }]
    ∧ (AcceptJson :: fs).length = 1 + fs.length
    ∧ (∀ (i : Nat) (hi : i < fs.length),
        (AcceptJson :: fs).get ⟨i + 1, Nat.succ_lt_succ hi⟩ = fs.get ⟨i, hi⟩)
    ∧ (c.ListSweeps dec ctx accountID walletID [] t).2.httpCalls
        = t.httpCalls ++ [{ endpoint := Endpoint MethodGet c.pathSweeps [accountID, walletID],
                            args := [AcceptJson] }] := by
  refine ⟨?_, ?_, ?_, ?_⟩
  · simp only [Client.ListSweeps, Client.CallHttp, Trace.recordHttp]
    cases c.roundTrip ctx (Endpoint MethodGet c.pathSweeps [accountID, walletID])
      (prependArgs fs [AcceptJson]) <;> rfl
  · simp [Nat.add_comm]
  · intro i hi
    rfl
  · simp only [Client.ListSweeps, Client.CallHttp, Trace.recordHttp]
    cases c.roundTrip ctx (Endpoint MethodGet c.pathSweeps [accountID, walletID])
      (prependArgs [] [AcceptJson]) <;> rfl

/-! ## Failures of the HTTP call -/

theorem Errorf_v_text (label lead : String) (e : GoError) (h : label ++ ": " = lead) :
    Errorf_v lead e = .errorString (label ++ ": " ++ e.Error) := by
  subst h
  rfl

/-- C3: whenever the invocation of `CallHttp` made by a sweep wrapper returns an error `e`,
the wrapper returns a nil result together with the error whose text is the operation's own
label (`listing sweep configs`, `getting sweep config`, `creating sweep config`,
`updating sweep config`, `listing sweeps`, `getting sweep`) followed by `": "` and the text
of `e`, and no response resolver is invoked. -/
theorem sweep_wrappers_forward_http_error {SweepConfig Sweep : Type} (c : Client)
    (decC : Codec SweepConfig) (decS : Codec Sweep) (ctx : Context)
    (accountID walletID sweepConfigID sweepID : String) (create : CreateSweepConfig)
    (update : UpdateSweepConfig) (filters : List ListSweepsFilter) (t : Trace)
    (e : GoError) :
    (((c.CallHttp ctx (Endpoint MethodGet c.pathSweepConfigs [accountID])
          [AcceptJson] t).1 = .error e) →
        (c.ListSweepConfigs decC ctx accountID t).1
            = (none, some (GoError.errorString ("listing sweep configs" ++ ": " ++ e.Error)))
        ∧ (c.ListSweepConfigs decC ctx accountID t).2.resolved = t.resolved)
    ∧ (((c.CallHttp ctx (Endpoint MethodGet c.pathSweepConfig [accountID, sweepConfigID])
          [AcceptJson] t).1 = .error e) →
        (c.GetSweepConfig decC ctx accountID sweepConfigID t).1
            = (none, some (GoError.errorString ("getting sweep config" ++ ": " ++ e.Error)))
        ∧ (c.GetSweepConfig decC ctx accountID sweepConfigID t).2.resolved = t.resolved)
    ∧ (((c.CallHttp ctx (Endpoint MethodPost c.pathSweepConfigs [create.AccountID])
          [AcceptJson, JsonBody create] t).1 = .error e) →
        (c.CreateSweepConfig decC ctx create t).1
            = (none, some (GoError.errorString ("creating sweep config" ++ ": " ++ e.Error)))
        ∧ (c.CreateSweepConfig decC ctx create t).2.resolved = t.resolved)
    ∧ (((c.CallHttp ctx (Endpoint MethodPatch c.pathSweepConfig [update.AccountID, update.SweepConfigID])
          [AcceptJson, JsonBody update] t).1 = .error e) →
        (c.UpdateSweepConfig decC ctx update t).1
            = (none, some (GoError.errorString ("updating sweep config" ++ ": " ++ e.Error)))
        ∧ (c.UpdateSweepConfig decC ctx update t).2.resolved = t.resolved)
    ∧ (((c.CallHttp ctx (Endpoint MethodGet c.pathSweeps [accountID, walletID])
          (prependArgs filters [AcceptJson]) t).1 = .error e) →
        (c.ListSweeps decS ctx accountID walletID filters t).1
            = (none, some (GoError.errorString ("listing sweeps" ++ ": " ++ e.Error)))
        ∧ (c.ListSweeps decS ctx accountID walletID filters t).2.resolved = t.resolved)
    ∧ (((c.CallHttp ctx (Endpoint MethodGet c.pathSweep [accountID, walletID, sweepID])
          [AcceptJson] t).1 = .error e) →
        (c.GetSweep decS ctx accountID walletID sweepID t).1
            = (none, some (GoError.errorString ("getting sweep" ++ ": " ++ e.Error)))
        ∧ (c.GetSweep decS ctx accountID walletID sweepID t).2.resolved = t.resolved) := by
  refine ⟨?_, ?_, ?_, ?_, ?_, ?_⟩
  · intro h
    simp only [Client.CallHttp] at h
    simp only [Client.ListSweepConfigs, Client.CallHttp, h]
    exact ⟨by rw [Errorf_v_text "listing sweep configs" _ e (by decide)], rfl⟩
  · intro h
    simp only [Client.CallHttp] at h
    simp only [Client.GetSweepConfig, Client.CallHttp, h]
    exact ⟨by rw [Errorf_v_text "getting sweep config" _ e (by decide)], rfl⟩
  · intro h
    simp only [Client.CallHttp] at h
    simp only [Client.CreateSweepConfig, Client.CallHttp, h]
    exact ⟨by rw [Errorf_v_text "creating sweep config" _ e (by decide)], rfl⟩
  · intro h
    simp only [Client.CallHttp] at h
    simp only [Client.UpdateSweepConfig, Client.CallHttp, h]
    exact ⟨by rw [Errorf_v_text "updating sweep config" _ e (by decide)], rfl⟩
  · intro h
    simp only [Client.CallHttp] at h
    simp only [Client.ListSweeps, Client.CallHttp, h]
    exact ⟨by rw [Errorf_v_text "listing sweeps" _ e (by decide)], rfl⟩
  · intro h
    simp only [Client.CallHttp] at h
    simp only [Client.GetSweep, Client.CallHttp, h]
    exact ⟨by rw [Errorf_v_text "getting sweep" _ e (by decide)], rfl⟩

/-- Witness of C3 on the client whose HTTP calls are refused. -/
theorem sweep_wrappers_forward_http_error_witness :
    (∀ (ctx : Context) (endpoint : EndpointArg) (args : List callArg),
        (refusedClient.CallHttp ctx endpoint args emptyTrace).1
          = .error (GoError.TransportError "connection refused"))
    ∧ ((refusedClient.ListSweepConfigs textCodec { id := 0 } "acct" emptyTrace).1
        = (none, some (GoError.errorString ("listing sweep configs" ++ ": " ++ "connection refused")))
      ∧ (refusedClient.ListSweepConfigs textCodec { id := 0 } "acct" emptyTrace).2.resolved = [])
    ∧ ((refusedClient.GetSweepConfig textCodec { id := 0 } "acct" "config" emptyTrace).1
        = (none, some (GoError.errorString ("getting sweep config" ++ ": " ++ "connection refused")))
      ∧ (refusedClient.GetSweepConfig textCodec { id := 0 } "acct" "config" emptyTrace).2.resolved = [])
    ∧ ((refusedClient.CreateSweepConfig textCodec { id := 0 } sampleCreate emptyTrace).1
        = (none, some (GoError.errorString ("creating sweep config" ++ ": " ++ "connection refused")))
      ∧ (refusedClient.CreateSweepConfig textCodec { id := 0 } sampleCreate emptyTrace).2.resolved = [])
    ∧ ((refusedClient.UpdateSweepConfig textCodec { id := 0 } sampleUpdate emptyTrace).1
        = (none, some (GoError.errorString ("updating sweep config" ++ ": " ++ "connection refused")))
      ∧ (refusedClient.UpdateSweepConfig textCodec { id := 0 } sampleUpdate emptyTrace).2.resolved = [])
    ∧ ((refusedClient.ListSweeps textCodec { id := 0 } "acct" "wallet" [WithSweepStatus "pending"] emptyTrace).1
        = (none, some (GoError.errorString ("listing sweeps" ++ ": " ++ "connection refused")))
      ∧ (refusedClient.ListSweeps textCodec { id := 0 } "acct" "wallet" [WithSweepStatus "pending"] emptyTrace).2.resolved = [])
    ∧ ((refusedClient.GetSweep textCodec { id := 0 } "acct" "wallet" "sweep" emptyTrace).1
        = (none, some (GoError.errorString ("getting sweep" ++ ": " ++ "connection refused")))
      ∧ (refusedClient.GetSweep textCodec { id := 0 } "acct" "wallet" "sweep" emptyTrace).2.resolved = []) :=
  ⟨fun _ _ _ => rfl,
    (sweep_wrappers_forward_http_error refusedClient textCodec textCodec { id := 0 }
      "acct" "wallet" "config" "sweep" sampleCreate sampleUpdate [WithSweepStatus "pending"]
      emptyTrace (GoError.TransportError "connection refused")).1 rfl,
    (sweep_wrappers_forward_http_error refusedClient textCodec textCodec { id := 0 }
      "acct" "wallet" "config" "sweep" sampleCreate sampleUpdate [WithSweepStatus "pending"]
      emptyTrace (GoError.TransportError "connection refused")).2.1 rfl,
    (sweep_wrappers_forward_http_error refusedClient textCodec textCodec { id := 0 }
      "acct" "wallet" "config" "sweep" sampleCreate sampleUpdate [WithSweepStatus "pending"]
      emptyTrace (GoError.TransportError "connection refused")).2.2.1 rfl,
    (sweep_wrappers_forward_http_error refusedClient textCodec textCodec { id := 0 }
      "acct" "wallet" "config" "sweep" sampleCreate sampleUpdate [WithSweepStatus "pending"]
      emptyTrace (GoError.TransportError "connection refused")).2.2.2.1 rfl,
    (sweep_wrappers_forward_http_error refusedClient textCodec textCodec { id := 0 }
      "acct" "wallet" "config" "sweep" sampleCreate sampleUpdate [WithSweepStatus "pending"]
      emptyTrace (GoError.TransportError "connection refused")).2.2.2.2.1 rfl,
    (sweep_wrappers_forward_http_error refusedClient textCodec textCodec { id := 0 }
      "acct" "wallet" "config" "sweep" sampleCreate sampleUpdate [WithSweepStatus "pending"]
      emptyTrace (GoError.TransportError "connection refused")).2.2.2.2.2 rfl⟩

/-! ## One HTTP call per invocation -/

/-- C8: for every input and every outcome of `CallHttp`, each sweep wrapper extends the
record of `CallHttp` invocations by exactly one invocation (its own request), and extends the
record of resolver invocations by the one response when the call succeeded and not at all
when it failed. -/
theorem sweep_wrappers_call_http_once {SweepConfig Sweep : Type} (c : Client)
    (decC : Codec SweepConfig) (decS : Codec Sweep) (ctx : Context)
    (accountID walletID sweepConfigID sweepID : String) (create : CreateSweepConfig)
    (update : UpdateSweepConfig) (filters : List ListSweepsFilter) (t : Trace) :
    ((c.ListSweepConfigs decC ctx accountID t).2.httpCalls
          = t.httpCalls ++ [{ endpoint := Endpoint MethodGet c.pathSweepConfigs [accountID],
                              args := [AcceptJson] }]
      ∧ (c.ListSweepConfigs decC ctx accountID t).2.resolved
          = match (c.CallHttp ctx (Endpoint MethodGet c.pathSweepConfigs [accountID])
          [AcceptJson] t).1 with
            | .ok resp => t.resolved ++ [resp]
            | .error _ => t.resolved)
    ∧ ((c.GetSweepConfig decC ctx accountID sweepConfigID t).2.httpCalls
          = t.httpCalls ++ [{ endpoint := Endpoint MethodGet c.pathSweepConfig [accountID, sweepConfigID],
                              args := [AcceptJson] }]
      ∧ (c.GetSweepConfig decC ctx accountID sweepConfigID t).2.resolved
          = match (c.CallHttp ctx (Endpoint MethodGet c.pathSweepConfig [accountID, sweepConfigID])
          [AcceptJson] t).1 with
            | .ok resp => t.resolved ++ [resp]
            | .error _ => t.resolved)
    ∧ ((c.CreateSweepConfig decC ctx create t).2.httpCalls
          = t.httpCalls ++ [{ endpoint := Endpoint MethodPost c.pathSweepConfigs [create.AccountID],
                              args := [AcceptJson, JsonBody create] }]
      ∧ (c.CreateSweepConfig decC ctx create t).2.resolved
          = match (c.CallHttp ctx (Endpoint MethodPost c.pathSweepConfigs [create.AccountID])
          [AcceptJson, JsonBody create] t).1 with
            | .ok resp => t.resolved ++ [resp]
            | .error _ => t.resolved)
    ∧ ((c.UpdateSweepConfig decC ctx update t).2.httpCalls
          = t.httpCalls ++ [{ endpoint := Endpoint MethodPatch c.pathSweepConfig [update.AccountID, update.SweepConfigID],
                              args := [AcceptJson, JsonBody update] }]
      ∧ (c.UpdateSweepConfig decC ctx update t).2.resolved
          = match (c.CallHttp ctx (Endpoint MethodPatch c.pathSweepConfig [update.AccountID, update.SweepConfigID])
          [AcceptJson, JsonBody update] t).1 with
            | .ok resp => t.resolved ++ [resp]
            | .error _ => t.resolved)
    ∧ ((c.ListSweeps decS ctx accountID walletID filters t).2.httpCalls
          = t.httpCalls ++ [{ endpoint := Endpoint MethodGet c.pathSweeps [accountID, walletID],
                              args := (prependArgs filters [AcceptJson]) }]
      ∧ (c.ListSweeps decS ctx accountID walletID filters t).2.resolved
          = match (c.CallHttp ctx (Endpoint MethodGet c.pathSweeps [accountID, walletID])
          (prependArgs filters [AcceptJson]) t).1 with
            | .ok resp => t.resolved ++ [resp]
            | .error _ => t.resolved)
    ∧ ((c.GetSweep decS ctx accountID walletID sweepID t).2.httpCalls
          = t.httpCalls ++ [{ endpoint := Endpoint MethodGet c.pathSweep [accountID, walletID, sweepID],
                              args := [AcceptJson] }]
      ∧ (c.GetSweep decS ctx accountID walletID sweepID t).2.resolved
          = match (c.CallHttp ctx (Endpoint MethodGet c.pathSweep [accountID, walletID, sweepID])
          [AcceptJson] t).1 with
            | .ok resp => t.resolved ++ [resp]
            | .error _ => t.resolved) := by
  refine ⟨?_, ?_, ?_, ?_, ?_, ?_⟩
  · simp only [Client.ListSweepConfigs, Client.CallHttp, Trace.recordHttp, Trace.recordResolve]
    cases c.roundTrip ctx (Endpoint MethodGet c.pathSweepConfigs [accountID])
      [AcceptJson] <;> exact ⟨rfl, rfl⟩
  · simp only [Client.GetSweepConfig, Client.CallHttp, Trace.recordHttp, Trace.recordResolve]
    cases c.roundTrip ctx (Endpoint MethodGet c.pathSweepConfig [accountID, sweepConfigID])
      [AcceptJson] <;> exact ⟨rfl, rfl⟩
  · simp only [Client.CreateSweepConfig, Client.CallHttp, Trace.recordHttp, Trace.recordResolve]
    cases c.roundTrip ctx (Endpoint MethodPost c.pathSweepConfigs [create.AccountID])
      [AcceptJson, JsonBody create] <;> exact ⟨rfl, rfl⟩
  · simp only [Client.UpdateSweepConfig, Client.CallHttp, Trace.recordHttp, Trace.recordResolve]
    cases c.roundTrip ctx (Endpoint MethodPatch c.pathSweepConfig [update.AccountID, update.SweepConfigID])
      [AcceptJson, JsonBody update] <;> exact ⟨rfl, rfl⟩
  · simp only [Client.ListSweeps, Client.CallHttp, Trace.recordHttp, Trace.recordResolve]
    cases c.roundTrip ctx (Endpoint MethodGet c.pathSweeps [accountID, walletID])
      (prependArgs filters [AcceptJson]) <;> exact ⟨rfl, rfl⟩
  · simp only [Client.GetSweep, Client.CallHttp, Trace.recordHttp, Trace.recordResolve]
    cases c.roundTrip ctx (Endpoint MethodGet c.pathSweep [accountID, walletID, sweepID])
      [AcceptJson] <;> exact ⟨rfl, rfl⟩

/-! ## Responses outside the success range -/

theorem isSuccess_eq_false (code : Int) (h : code < 200 ∨ 300 ≤ code) :
    isSuccess code = false := by
  unfold isSuccess
  rcases h with h | h
  · have : ¬ (200 ≤ code) := by omega
    simp [this]
  · have : ¬ (code < 300) := by omega
    simp [this]

/-- C6: for every raw response `resp` whose status code is outside the 2xx range,
`CompletedListOrError` and `CompletedObjectOrError` return a nil value and a non-nil error,
and so does every sweep wrapper whose HTTP call returned `resp`. -/
theorem sweep_resolvers_reject_non_2xx {SweepConfig Sweep : Type} (c : Client)
    (decC : Codec SweepConfig) (decS : Codec Sweep) (ctx : Context)
    (accountID walletID sweepConfigID sweepID : String) (create : CreateSweepConfig)
    (update : UpdateSweepConfig) (filters : List ListSweepsFilter) (t : Trace)
    (resp : CallResponse) (hstatus : resp.StatusCode < 200 ∨ 300 ≤ resp.StatusCode) :
    CompletedListOrError decC resp = (none, some (errorOf decC resp))
    ∧ CompletedObjectOrError decC resp = (none, some (errorOf decC resp))
    ∧ CompletedListOrError decS resp = (none, some (errorOf decS resp))
    ∧ CompletedObjectOrError decS resp = (none, some (errorOf decS resp))
    ∧ (((c.CallHttp ctx (Endpoint MethodGet c.pathSweepConfigs [accountID])
          [AcceptJson] t).1 = .ok resp) →
        (c.ListSweepConfigs decC ctx accountID t).1 = (none, some (errorOf decC resp)))
    ∧ (((c.CallHttp ctx (Endpoint MethodGet c.pathSweepConfig [accountID, sweepConfigID])
          [AcceptJson] t).1 = .ok resp) →
        (c.GetSweepConfig decC ctx accountID sweepConfigID t).1 = (none, some (errorOf decC resp)))
    ∧ (((c.CallHttp ctx (Endpoint MethodPost c.pathSweepConfigs [create.AccountID])
          [AcceptJson, JsonBody create] t).1 = .ok resp) →
        (c.CreateSweepConfig decC ctx create t).1 = (none, some (errorOf decC resp)))
    ∧ (((c.CallHttp ctx (Endpoint MethodPatch c.pathSweepConfig [update.AccountID, update.SweepConfigID])
          [AcceptJson, JsonBody update] t).1 = .ok resp) →
        (c.UpdateSweepConfig decC ctx update t).1 = (none, some (errorOf decC resp)))
    ∧ (((c.CallHttp ctx (Endpoint MethodGet c.pathSweeps [accountID, walletID])
          (prependArgs filters [AcceptJson]) t).1 = .ok resp) →
        (c.ListSweeps decS ctx accountID walletID filters t).1 = (none, some (errorOf decS resp)))
    ∧ (((c.CallHttp ctx (Endpoint MethodGet c.pathSweep [accountID, walletID, sweepID])
          [AcceptJson] t).1 = .ok resp) →
        (c.GetSweep decS ctx accountID walletID sweepID t).1 = (none, some (errorOf decS resp))) := by
  have hs := isSuccess_eq_false resp.StatusCode hstatus
  have hlist : ∀ {A : Type} (dec : Codec A),
      CompletedListOrError dec resp = (none, some (errorOf dec resp)) := by
    intro A dec
    simp [CompletedListOrError, hs]
  have hobj : ∀ {A : Type} (dec : Codec A),
      CompletedObjectOrError dec resp = (none, some (errorOf dec resp)) := by
    intro A dec
    simp [CompletedObjectOrError, hs]
  refine ⟨hlist decC, hobj decC, hlist decS, hobj decS, ?_, ?_, ?_, ?_, ?_, ?_⟩
  · intro h
    simp only [Client.CallHttp] at h
    simp only [Client.ListSweepConfigs, Client.CallHttp, h]
    exact hlist decC
  · intro h
    simp only [Client.CallHttp] at h
    simp only [Client.GetSweepConfig, Client.CallHttp, h]
    exact hobj decC
  · intro h
    simp only [Client.CallHttp] at h
    simp only [Client.CreateSweepConfig, Client.CallHttp, h]
    exact hobj decC
  · intro h
    simp only [Client.CallHttp] at h
    simp only [Client.UpdateSweepConfig, Client.CallHttp, h]
    exact hobj decC
  · intro h
    simp only [Client.CallHttp] at h
    simp only [Client.ListSweeps, Client.CallHttp, h]
    exact hlist decS
  · intro h
    simp only [Client.CallHttp] at h
    simp only [Client.GetSweep, Client.CallHttp, h]
    exact hobj decS

/-- Witness of C6 on the client whose HTTP calls are answered with status 404. -/
theorem sweep_resolvers_reject_non_2xx_witness :
    ((404 : Int) < 200 ∨ (300 : Int) ≤ 404)
    ∧ (∀ (ctx : Context) (endpoint : EndpointArg) (args : List callArg),
        (notFoundClient.CallHttp ctx endpoint args emptyTrace).1
          = .ok { StatusCode := 404, Header := [], Body := "not found" })
    ∧ (notFoundClient.ListSweepConfigs textCodec { id := 0 } "acct" emptyTrace).1
        = (none, some (GoError.HTTPError 404 "not found"))
    ∧ (notFoundClient.GetSweepConfig textCodec { id := 0 } "acct" "config" emptyTrace).1
        = (none, some (GoError.HTTPError 404 "not found"))
    ∧ (notFoundClient.CreateSweepConfig textCodec { id := 0 } sampleCreate emptyTrace).1
        = (none, some (GoError.HTTPError 404 "not found"))
    ∧ (notFoundClient.UpdateSweepConfig textCodec { id := 0 } sampleUpdate emptyTrace).1
        = (none, some (GoError.HTTPError 404 "not found"))
    ∧ (notFoundClient.ListSweeps textCodec { id := 0 } "acct" "wallet" [WithSweepStatus "pending"] emptyTrace).1
        = (none, some (GoError.HTTPError 404 "not found"))
    ∧ (notFoundClient.GetSweep textCodec { id := 0 } "acct" "wallet" "sweep" emptyTrace).1
        = (none, some (GoError.HTTPError 404 "not found")) :=
  ⟨Or.inr (by decide), fun _ _ _ => rfl,
    (sweep_resolvers_reject_non_2xx notFoundClient textCodec textCodec { id := 0 }
      "acct" "wallet" "config" "sweep" sampleCreate sampleUpdate [WithSweepStatus "pending"]
      emptyTrace { StatusCode := 404, Header := [], Body := "not found" }
      (Or.inr (by decide))).2.2.2.2.1 rfl,
    (sweep_resolvers_reject_non_2xx notFoundClient textCodec textCodec { id := 0 }
      "acct" "wallet" "config" "sweep" sampleCreate sampleUpdate [WithSweepStatus "pending"]
      emptyTrace { StatusCode := 404, Header := [], Body := "not found" }
      (Or.inr (by decide))).2.2.2.2.2.1 rfl,
    (sweep_resolvers_reject_non_2xx notFoundClient textCodec textCodec { id := 0 }
      "acct" "wallet" "config" "sweep" sampleCreate sampleUpdate [WithSweepStatus "pending"]
      emptyTrace { StatusCode := 404, Header := [], Body := "not found" }
      (Or.inr (by decide))).2.2.2.2.2.2.1 rfl,
    (sweep_resolvers_reject_non_2xx notFoundClient textCodec textCodec { id := 0 }
      "acct" "wallet" "config" "sweep" sampleCreate sampleUpdate [WithSweepStatus "pending"]
      emptyTrace { StatusCode := 404, Header := [], Body := "not found" }
      (Or.inr (by decide))).2.2.2.2.2.2.2.1 rfl,
    (sweep_resolvers_reject_non_2xx notFoundClient textCodec textCodec { id := 0 }
      "acct" "wallet" "config" "sweep" sampleCreate sampleUpdate [WithSweepStatus "pending"]
      emptyTrace { StatusCode := 404, Header := [], Body := "not found" }
      (Or.inr (by decide))).2.2.2.2.2.2.2.2.1 rfl,
    (sweep_resolvers_reject_non_2xx notFoundClient textCodec textCodec { id := 0 }
      "acct" "wallet" "config" "sweep" sampleCreate sampleUpdate [WithSweepStatus "pending"]
      emptyTrace { StatusCode := 404, Header := [], Body := "not found" }
      (Or.inr (by decide))).2.2.2.2.2.2.2.2.2 rfl⟩

/-! ## The transfer outcome -/

/-- C7: a response with status 201 whose body decodes to a transfer `value` resolves without
error to an outcome on which `Completed()` returns `(value, true)` and `Started()` returns
`(zero, false)`; a response with status 202 whose body decodes to a handle resolves without
error to an outcome on which `Started()` returns the non-nil handle, with its `TransferID`,
and `true`, and `Completed()` returns `(zero, false)`; a decode failure gives an error and no
outcome; and on every outcome exactly one of the two accessors is populated, its flag being
`true` exactly when its value is non-nil. -/
theorem transfer_outcome_narrows_safely {T : Type} (dec : Codec T)
    (decStarted : String → Option TransferStarted) (resp : CallResponse) (o : Outcome T) :
    (resp.StatusCode = 201 →
      (∀ value, dec.object resp.Body = some value →
        ∃ o1, resolveOutcome dec decStarted resp = .ok o1
          ∧ o1.Completed = (some value, true) ∧ o1.Started = (none, false))
      ∧ (dec.object resp.Body = none →
          resolveOutcome dec decStarted resp = .error (.MalformedResponse resp.Body)))
    ∧ (resp.StatusCode = 202 →
      (∀ handle, decStarted resp.Body = some handle →
        ∃ o1, resolveOutcome dec decStarted resp = .ok o1
          ∧ o1.Started = (some handle, true) ∧ o1.Completed = (none, false)
          ∧ o1.Started.1.map TransferStarted.TransferID = some handle.TransferID)
      ∧ (decStarted resp.Body = none →
          resolveOutcome dec decStarted resp = .error (.MalformedResponse resp.Body)))
    ∧ (o.Completed.2 = true ∧ o.Started.2 = false ∨ o.Completed.2 = false ∧ o.Started.2 = true)
    ∧ o.Completed.1.isSome = o.Completed.2 ∧ o.Started.1.isSome = o.Started.2
    ∧ ¬ (o.Completed.1.isSome = true ∧ o.Started.1.isSome = true)
    ∧ ¬ (o.Completed.1.isSome = false ∧ o.Started.1.isSome = false) := by
  refine ⟨?_, ?_, ?_, ?_, ?_, ?_, ?_⟩
  · intro h
    constructor
    · intro value hv
      exact ⟨.completed value, by simp [resolveOutcome, h, hv], rfl, rfl⟩
    · intro hv
      simp [resolveOutcome, h, hv]
  · intro h
    constructor
    · intro handle hv
      exact ⟨.started handle, by simp [resolveOutcome, h, hv], rfl, rfl, rfl⟩
    · intro hv
      simp [resolveOutcome, h, hv]
  · cases o <;> simp [Outcome.Completed, Outcome.Started]
  · cases o <;> rfl
  · cases o <;> rfl
  · cases o <;> simp [Outcome.Completed, Outcome.Started]
  · cases o <;> simp [Outcome.Completed, Outcome.Started]

/-- Witness of C7 on a completed (201) and on an accepted (202) transfer. -/
theorem transfer_outcome_narrows_safely_witness :
    (textCodec.object "done" = some "done"
      ∧ ∃ o1, resolveOutcome textCodec acceptedHandle
            { StatusCode := 201, Header := [], Body := "done" } = .ok o1
          ∧ o1.Completed = (some "done", true) ∧ o1.Started = (none, false))
    ∧ (acceptedHandle "accepted" = some { TransferID := "tr-1", Status := "pending" }
      ∧ ∃ o1, resolveOutcome textCodec acceptedHandle
            { StatusCode := 202, Header := [], Body := "accepted" } = .ok o1
          ∧ o1.Started = (some { TransferID := "tr-1", Status := "pending" }, true)
          ∧ o1.Completed = (none, false)
          ∧ o1.Started.1.map TransferStarted.TransferID = some "tr-1") :=
  ⟨⟨rfl,
      ((transfer_outcome_narrows_safely textCodec acceptedHandle
        { StatusCode := 201, Header := [], Body := "done" }
        (.completed "done")).1 rfl).1 "done" rfl⟩,
    ⟨rfl,
      ((transfer_outcome_narrows_safely textCodec acceptedHandle
        { StatusCode := 202, Header := [], Body := "accepted" }
        (.started { TransferID := "tr-1", Status := "pending" })).2.1 rfl).1
        { TransferID := "tr-1", Status := "pending" } rfl⟩⟩

/-! ## Routing identifiers of the sweep-config requests -/

/-- The keys of a JSON object, in order. -/
theorem omitempty_keys (key : String) (field : Option String) :
    (omitempty key field).map Prod.fst = if field.isSome then [key] else [] := by
  cases field <;> rfl

/-- C10: `CreateSweepConfig` sends `AccountID` as the single path argument and a JSON body
with no `AccountID` member; `UpdateSweepConfig` sends `AccountID` then `SweepConfigID` as the
path arguments and a JSON body with neither of them, in which each of `status`,
`pushPaymentMethodID`, `pullPaymentMethodID`, `statementDescriptor` and `minimumBalance` is
present if and only if its field is non-nil; an update with every optional field nil sends
the empty object. -/
theorem sweep_config_ids_go_in_path {SweepConfig : Type} (c : Client)
    (dec : Codec SweepConfig) (ctx : Context) (create : CreateSweepConfig)
    (update : UpdateSweepConfig) (t : Trace) :
    ((c.CreateSweepConfig dec ctx create t).2.httpCalls
        = t.httpCalls ++ [{ endpoint := Endpoint MethodPost c.pathSweepConfigs
                              [create.AccountID],
                            args := [AcceptJson, JsonBody create] }]
      ∧ (∃ call, newCall (Endpoint MethodPost c.pathSweepConfigs [create.AccountID])
            [AcceptJson, JsonBody create] = .ok (some call, none)
          ∧ call.pathParams = [create.AccountID]
          ∧ call.params = some ∅
          ∧ call.body = some (JsonMarshal.marshal create))
      ∧ (JsonMarshal.marshal create).map Prod.fst
          = ["walletID", "status", "pushPaymentMethodID", "pullPaymentMethodID"]
            ++ (if create.StatementDescriptor.isSome then ["statementDescriptor"] else [])
            ++ (if create.MinimumBalance.isSome then ["minimumBalance"] else [])
      ∧ "AccountID" ∉ (JsonMarshal.marshal create).map Prod.fst
      ∧ "accountID" ∉ (JsonMarshal.marshal create).map Prod.fst)
    ∧ ((c.UpdateSweepConfig dec ctx update t).2.httpCalls
        = t.httpCalls ++ [{ endpoint := Endpoint MethodPatch c.pathSweepConfig
                              [update.AccountID, update.SweepConfigID],
                            args := [AcceptJson, JsonBody update] }]
      ∧ (∃ call, newCall (Endpoint MethodPatch c.pathSweepConfig
              [update.AccountID, update.SweepConfigID])
            [AcceptJson, JsonBody update] = .ok (some call, none)
          ∧ call.pathParams = [update.AccountID, update.SweepConfigID]
          ∧ call.params = some ∅
          ∧ call.body = some (JsonMarshal.marshal update))
      ∧ (JsonMarshal.marshal update).map Prod.fst
          = (if update.Status.isSome then ["status"] else [])
            ++ (if update.PushPaymentMethodID.isSome then ["pushPaymentMethodID"] else [])
            ++ (if update.PullPaymentMethodID.isSome then ["pullPaymentMethodID"] else [])
            ++ (if update.StatementDescriptor.isSome then ["statementDescriptor"] else [])
            ++ (if update.MinimumBalance.isSome then ["minimumBalance"] else [])
      ∧ ("status" ∈ (JsonMarshal.marshal update).map Prod.fst ↔ update.Status ≠ none)
      ∧ ("pushPaymentMethodID" ∈ (JsonMarshal.marshal update).map Prod.fst
          ↔ update.PushPaymentMethodID ≠ none)
      ∧ ("pullPaymentMethodID" ∈ (JsonMarshal.marshal update).map Prod.fst
          ↔ update.PullPaymentMethodID ≠ none)
      ∧ ("statementDescriptor" ∈ (JsonMarshal.marshal update).map Prod.fst
          ↔ update.StatementDescriptor ≠ none)
      ∧ ("minimumBalance" ∈ (JsonMarshal.marshal update).map Prod.fst
          ↔ update.MinimumBalance ≠ none)
      ∧ "AccountID" ∉ (JsonMarshal.marshal update).map Prod.fst
      ∧ "accountID" ∉ (JsonMarshal.marshal update).map Prod.fst
      ∧ "SweepConfigID" ∉ (JsonMarshal.marshal update).map Prod.fst
      ∧ "sweepConfigID" ∉ (JsonMarshal.marshal update).map Prod.fst
      ∧ JsonMarshal.marshal
          ({ AccountID := update.AccountID, SweepConfigID := update.SweepConfigID,
             Status := none, PushPaymentMethodID := none, PullPaymentMethodID := none,
             StatementDescriptor := none, MinimumBalance := none } : UpdateSweepConfig)
          = []) := by
  have hcreate : (JsonMarshal.marshal create).map Prod.fst
      = ["walletID", "status", "pushPaymentMethodID", "pullPaymentMethodID"]
        ++ (if create.StatementDescriptor.isSome then ["statementDescriptor"] else [])
        ++ (if create.MinimumBalance.isSome then ["minimumBalance"] else []) := by
    simp only [JsonMarshal.marshal, List.map_append, omitempty_keys]
    rfl
  have hupdate : (JsonMarshal.marshal update).map Prod.fst
      = (if update.Status.isSome then ["status"] else [])
        ++ (if update.PushPaymentMethodID.isSome then ["pushPaymentMethodID"] else [])
        ++ (if update.PullPaymentMethodID.isSome then ["pullPaymentMethodID"] else [])
        ++ (if update.StatementDescriptor.isSome then ["statementDescriptor"] else [])
        ++ (if update.MinimumBalance.isSome then ["minimumBalance"] else []) := by
    simp only [JsonMarshal.marshal, List.map_append, omitempty_keys]
  refine ⟨⟨?_, ?_, hcreate, ?_, ?_⟩, ⟨?_, ?_, hupdate, ?_, ?_, ?_, ?_, ?_, ?_, ?_, ?_, ?_, rfl⟩⟩
  · simp only [Client.CreateSweepConfig, Client.CallHttp, Trace.recordHttp]
    cases c.roundTrip ctx (Endpoint MethodPost c.pathSweepConfigs [create.AccountID])
      [AcceptJson, JsonBody create] <;> rfl
  · exact ⟨_, rfl, rfl, rfl, rfl⟩
  · rw [hcreate]
    cases create.StatementDescriptor <;> cases create.MinimumBalance <;> simp
  · rw [hcreate]
    cases create.StatementDescriptor <;> cases create.MinimumBalance <;> simp
  · simp only [Client.UpdateSweepConfig, Client.CallHttp, Trace.recordHttp]
    cases c.roundTrip ctx
      (Endpoint MethodPatch c.pathSweepConfig [update.AccountID, update.SweepConfigID])
      [AcceptJson, JsonBody update] <;> rfl
  · exact ⟨_, rfl, rfl, rfl, rfl⟩
  all_goals
    rw [hupdate]
    cases update.Status <;> cases update.PushPaymentMethodID <;>
      cases update.PullPaymentMethodID <;> cases update.StatementDescriptor <;>
      cases update.MinimumBalance <;> simp

end Moov
